import Mathlib

/-!
A verification development for the Raspberry Pi sensor-monitoring
repository (files ESD_Essentials_project.py and Sensor_CSV.py).

Numeric sensor values (Python floats) are embedded as rationals.
Optional readings (a Python value that may be the sentinel string) are
embedded as Option: the acquisition loop carries its readings as
value-or-sentinel, and the classifier branches exactly as the source does.
-/

namespace RpiGui

/-- One sample round of the acquisition loop, as assembled in
sensor_loop: temperature from the DHT read (absent when the read
failed), the gas digital line (true when the line was observed low),
and the ultrasonic distance (absent when the probe timed out). -/
structure SensorSample where
  temperature : Option ℚ
  gas_present : Bool
  distance : Option ℚ
  deriving DecidableEq

/-- ppm_val as computed in the loop: 1 if gas_detected else 0. -/
def ppmVal (s : SensorSample) : ℕ := if s.gas_present then 1 else 0

/-- The anomaly-detection block of sensor_loop (identical in
Sensor_CSV.py): start with "No"; if either reading is absent the verdict
is "Yes"; otherwise the two independent range tests each overwrite the
verdict with "Yes" when their reading is out of range. -/
def anomaly : Option ℚ → Option ℚ → String
  | none, _ => "Yes"
  | some _, none => "Yes"
  | some t, some l =>
    let a1 := if ¬ (0 ≤ t ∧ t ≤ 50) then "Yes" else "No"
    let a2 := if ¬ (0 ≤ l ∧ l ≤ 400) then "Yes" else a1
    a2

/-- The classification step applied to a whole sample round, in the
scope where the loop also holds the gas reading and the two
slider-provided thresholds: the computed verdict reads only the
temperature and distance fields. -/
def classify (s : SensorSample) (tempThreshold gasThreshold : ℚ) : String :=
  anomaly s.temperature s.distance

/-- C1: for every sample in which the temperature reading is absent or
the distance reading is absent, the anomaly classification step of the
acquisition loop produces the anomalous verdict, logged as "Yes". -/
theorem classify_absent_is_anomalous (s : SensorSample) (tt gt : ℚ)
    (h : s.temperature = none ∨ s.distance = none) :
    classify s tt gt = "Yes" := by
  rcases s with ⟨t, g, d⟩
  rcases h with h | h
  · simp only at h
    subst h
    cases d <;> rfl
  · simp only at h
    subst h
    cases t <;> rfl

/-- Witness for C1: a sample with both readings absent is classified
anomalous. -/
theorem classify_absent_is_anomalous_witness :
    classify ⟨none, false, some 5⟩ 50 1 = "Yes" :=
  classify_absent_is_anomalous ⟨none, false, some 5⟩ 50 1 (Or.inl rfl)

/-- C2: with both readings present, temperature in [0, 50] and distance
in [0, 400] (boundaries inclusive) yield the verdict "No", and any value
strictly outside either interval yields "Yes". -/
theorem classify_range_boundaries (t l : ℚ) :
    ((0 ≤ t ∧ t ≤ 50 ∧ 0 ≤ l ∧ l ≤ 400) →
      anomaly (some t) (some l) = "No")
    ∧ ((t < 0 ∨ 50 < t ∨ l < 0 ∨ 400 < l) →
      anomaly (some t) (some l) = "Yes") := by
  constructor
  · rintro ⟨h1, h2, h3, h4⟩
    simp only [anomaly]
    rw [if_neg, if_neg]
    · intro hc
      exact hc ⟨h1, h2⟩
    · intro hc
      exact hc ⟨h3, h4⟩
  · intro h
    simp only [anomaly]
    split_ifs with h1 h2 <;> try rfl
    all_goals
      push_neg at h1 h2
      rcases h with h | h | h | h <;>
        linarith [h1.1, h1.2, h2.1, h2.2]

/-- Witness for C2: temperature exactly 50 with distance exactly 400 is
not anomalous; temperature 50.01 is anomalous. -/
theorem classify_range_boundaries_witness :
    anomaly (some 50) (some 400) = "No"
    ∧ anomaly (some (5001 / 100)) (some 0) = "Yes" :=
  ⟨(classify_range_boundaries 50 400).1 (by norm_num),
   (classify_range_boundaries (5001 / 100) 0).2 (by norm_num)⟩

/-- C3: the persisted anomaly verdict is independent of the gas reading
and of both threshold values: two samples agreeing on temperature and
distance are classified identically, whatever their gas_present fields
and whatever thresholds are in force. -/
theorem classify_gas_independent (s1 s2 : SensorSample)
    (tt1 gt1 tt2 gt2 : ℚ)
    (ht : s1.temperature = s2.temperature)
    (hd : s1.distance = s2.distance) :
    classify s1 tt1 gt1 = classify s2 tt2 gt2 := by
  simp only [classify, ht, hd]

/-- Witness for C3: flipping the gas reading and both thresholds leaves
the verdict unchanged. -/
theorem classify_gas_independent_witness :
    classify ⟨some 20, false, some 100⟩ 50 1
      = classify ⟨some 20, true, some 100⟩ 30 0 :=
  classify_gas_independent ⟨some 20, false, some 100⟩
    ⟨some 20, true, some 100⟩ 50 1 30 0 rfl rfl

/-!
The live history window.  sensor_loop appends one entry per round to
each of self.times, self.temps, self.gas_values, self.levels and then,
when len(self.times) exceeds max_len = 100, reassigns each list to its
slice of the last 100 entries.
-/

/-- max_len in sensor_loop. -/
def max_len : ℕ := 100

/-- Appending one entry and trimming to the last max_len entries, the
effect of one loop round on a single history list (append, then the
slice list[-100:] when the length exceeds 100). -/
def publish {α : Type} (l : List α) (x : α) : List α :=
  let l2 := l ++ [x]
  if max_len < l2.length then l2.drop (l2.length - max_len) else l2

theorem publish_length {α : Type} (l : List α) (x : α) :
    (publish l x).length = min (l.length + 1) max_len := by
  simp only [publish, List.length_append, List.length_singleton]
  split_ifs with h
  · simp only [List.length_drop, List.length_append, List.length_singleton]
    omega
  · simp only [List.length_append, List.length_singleton]
    omega

/-- Folding publish over a stream of entries keeps exactly the trailing
window: the result is the input stream with all but its last max_len
entries dropped. -/
theorem foldl_publish_eq_drop {α : Type} (xs : List α) :
    xs.foldl publish [] = xs.drop (xs.length - max_len) := by
  induction xs using List.reverseRecOn with
  | nil => rfl
  | append_singleton ys x ih =>
    rw [List.foldl_append, List.foldl_cons, List.foldl_nil, ih]
    have hml : 0 < max_len := by norm_num [max_len]
    simp only [publish, List.length_append, List.length_singleton,
      List.length_drop]
    by_cases h : ys.length < max_len
    · have e0 : ys.length - max_len = 0 := by omega
      have e1 : ys.length + 1 - max_len = 0 := by omega
      rw [e0, List.drop_zero, if_neg (by omega), e1, List.drop_zero]
    · have emin : ys.length - (ys.length - max_len) = max_len := by omega
      rw [emin, if_pos (by omega)]
      have e1 : max_len + 1 - max_len = 1 := by omega
      have hlen1 : (1 : ℕ) ≤ (ys.drop (ys.length - max_len)).length := by
        rw [List.length_drop]; omega
      have hlen2 : ys.length + 1 - max_len ≤ ys.length := by omega
      rw [e1, List.drop_append_of_le_length hlen1,
        List.drop_append_of_le_length hlen2, List.drop_drop]
      congr 2
      omega

/-- C4: with capacity max_len = 100, folding the per-round append-and-trim
step of sensor_loop over any stream of published entries leaves exactly
the most recent min(k, 100) entries in publish order (the stream minus
its oldest surplus); in particular, publishing 101 entries into an
initially empty buffer leaves length exactly 100, first element the 2nd
published entry and last element the 101st. -/
theorem history_window_holds_recent {α : Type} (xs : List α) :
    xs.foldl publish [] = xs.drop (xs.length - max_len)
    ∧ (xs.foldl publish []).length = min xs.length max_len
    ∧ (xs.length = max_len + 1 →
        (xs.foldl publish []).length = max_len
        ∧ (xs.foldl publish []).head? = xs[1]?
        ∧ (xs.foldl publish []).getLast? = xs[max_len]?) := by
  refine ⟨foldl_publish_eq_drop xs, ?_, ?_⟩
  · rw [foldl_publish_eq_drop xs, List.length_drop]
    omega
  · intro h
    rw [foldl_publish_eq_drop xs, List.length_drop, h]
    have e1 : max_len + 1 - max_len = 1 := by omega
    rw [e1]
    refine ⟨by omega, List.head?_drop xs 1, ?_⟩
    rw [List.getLast?_eq_getElem?, List.length_drop, h]
    rw [List.getElem?_drop]
    congr 1

/-- A wall-clock instant at second resolution, the value carried by the
Timestamp column (datetime.now() formatted to seconds and parsed back). -/
structure DT where
  year : ℕ
  month : ℕ
  day : ℕ
  hour : ℕ
  minute : ℕ
  second : ℕ
  deriving DecidableEq

/-- The values one loop round contributes to the four live lists:
the parsed-back timestamp, float(temp_val) or None, ppm_val, and
float(level_val) or None. -/
structure Round where
  dt : DT
  temperature : Option ℚ
  ppm : ℕ
  distance : Option ℚ
  deriving DecidableEq

/-- The four live history lists self.times, self.temps, self.gas_values,
self.levels of SensorApp. -/
structure LiveState where
  times : List DT
  temps : List (Option ℚ)
  gas_values : List ℕ
  levels : List (Option ℚ)
  deriving DecidableEq

/-- The tail of one sensor_loop iteration acting on the live lists: one
append to each list, then, when len(self.times) exceeds max_len, each
list is reassigned to its own slice of its last max_len entries. -/
def liveStep (st : LiveState) (r : Round) : LiveState :=
  let times := st.times ++ [r.dt]
  let temps := st.temps ++ [r.temperature]
  let gas_values := st.gas_values ++ [r.ppm]
  let levels := st.levels ++ [r.distance]
  if max_len < times.length then
    ⟨times.drop (times.length - max_len),
     temps.drop (temps.length - max_len),
     gas_values.drop (gas_values.length - max_len),
     levels.drop (levels.length - max_len)⟩
  else
    ⟨times, temps, gas_values, levels⟩

theorem liveStep_eq_publish (st : LiveState) (r : Round)
    (hb : st.temps.length = st.times.length)
    (hc : st.gas_values.length = st.times.length)
    (hd : st.levels.length = st.times.length) :
    liveStep st r = ⟨publish st.times r.dt, publish st.temps r.temperature,
      publish st.gas_values r.ppm, publish st.levels r.distance⟩ := by
  simp only [liveStep, publish, List.length_append, List.length_singleton,
    hb, hc, hd]
  split_ifs <;> rfl

theorem live_foldl_eq_publish_foldl (rs : List Round) :
    ∀ (a : List DT) (b : List (Option ℚ)) (c : List ℕ)
      (d : List (Option ℚ)),
      b.length = a.length → c.length = a.length → d.length = a.length →
      rs.foldl liveStep ⟨a, b, c, d⟩ =
        ⟨(rs.map (fun r => r.dt)).foldl publish a,
         (rs.map (fun r => r.temperature)).foldl publish b,
         (rs.map (fun r => r.ppm)).foldl publish c,
         (rs.map (fun r => r.distance)).foldl publish d⟩ := by
  induction rs with
  | nil => intro a b c d hb hc hd; rfl
  | cons r rs ih =>
    intro a b c d hb hc hd
    rw [List.foldl_cons, liveStep_eq_publish ⟨a, b, c, d⟩ r hb hc hd]
    simp only [List.map_cons, List.foldl_cons]
    exact ih (publish a r.dt) (publish b r.temperature) (publish c r.ppm)
      (publish d r.distance)
      (by rw [publish_length, publish_length, hb])
      (by rw [publish_length, publish_length, hc])
      (by rw [publish_length, publish_length, hd])

/-- C10: after any number of loop iterations starting from the empty
live state, the four history lists have one common length, that length
never exceeds max_len = 100, and each list is the corresponding field of
the same trailing window of rounds — so entries at equal indices always
come from the same sample round. -/
theorem live_lists_synchronized (rs : List Round) :
    ((rs.foldl liveStep ⟨[], [], [], []⟩).times.length
        = (rs.foldl liveStep ⟨[], [], [], []⟩).temps.length
      ∧ (rs.foldl liveStep ⟨[], [], [], []⟩).times.length
        = (rs.foldl liveStep ⟨[], [], [], []⟩).gas_values.length
      ∧ (rs.foldl liveStep ⟨[], [], [], []⟩).times.length
        = (rs.foldl liveStep ⟨[], [], [], []⟩).levels.length
      ∧ (rs.foldl liveStep ⟨[], [], [], []⟩).times.length ≤ max_len)
    ∧ (rs.foldl liveStep ⟨[], [], [], []⟩).times
        = (rs.drop (rs.length - max_len)).map (fun r => r.dt)
    ∧ (rs.foldl liveStep ⟨[], [], [], []⟩).temps
        = (rs.drop (rs.length - max_len)).map (fun r => r.temperature)
    ∧ (rs.foldl liveStep ⟨[], [], [], []⟩).gas_values
        = (rs.drop (rs.length - max_len)).map (fun r => r.ppm)
    ∧ (rs.foldl liveStep ⟨[], [], [], []⟩).levels
        = (rs.drop (rs.length - max_len)).map (fun r => r.distance) := by
  rw [live_foldl_eq_publish_foldl rs [] [] [] [] rfl rfl rfl]
  simp only [foldl_publish_eq_drop, List.length_map, List.length_drop,
    List.map_drop, and_true, true_and]
  omega

/-- Witness for C4: publishing the stream 0,...,100 (101 entries) into
the empty buffer keeps entries 1 through 100. -/
theorem history_window_holds_recent_witness :
    (((List.range (max_len + 1)).foldl publish []).length = max_len
      ∧ ((List.range (max_len + 1)).foldl publish []).head?
          = (List.range (max_len + 1))[1]?
      ∧ ((List.range (max_len + 1)).foldl publish []).getLast?
          = (List.range (max_len + 1))[max_len]?) :=
  (history_window_holds_recent (List.range (max_len + 1))).2.2
    (List.length_range (max_len + 1))

/-!
Durable log initialization.  At module load the program opens the CSV
file for reading; if the first byte exists the file is left alone,
otherwise (missing file or empty file) it is created/truncated and the
five-column header row is written.
-/

/-- The five-column header row written at startup. -/
def headerRow : String := "Timestamp,TEMP,PPM,LEVEL,Anomaly"

/-- The startup header-writing step over the store's contents: none
models an absent file, some c a file with contents c (f.read(1) is
truthy exactly when c is nonempty).  The result is the store's contents
after the step. -/
def ensureInit : Option String → String
  | some c => if c = "" then headerRow else c
  | none => headerRow

/-- C5: the startup header-writing step is idempotent: on a store that
already holds at least one byte it leaves the contents unchanged, it
writes the header exactly when the file is absent or empty, and running
it twice never duplicates the header. -/
theorem ensureInit_idempotent :
    (∀ c : String, c ≠ "" → ensureInit (some c) = c)
    ∧ (∀ s : Option String, ensureInit (some (ensureInit s)) = ensureInit s)
    ∧ ensureInit none = headerRow
    ∧ ensureInit (some "") = headerRow := by
  have hh : headerRow ≠ "" := by decide
  refine ⟨fun c hc => if_neg hc, fun s => ?_, rfl, by simp [ensureInit]⟩
  cases s with
  | none => simp only [ensureInit, if_neg hh]
  | some c =>
    by_cases hc : c = ""
    · simp only [ensureInit, if_pos hc, if_neg hh]
    · simp only [ensureInit, if_neg hc]

/-- Witness for C5: a store holding the single byte "x" is untouched. -/
theorem ensureInit_idempotent_witness : ensureInit (some "x") = "x" :=
  ensureInit_idempotent.1 "x" (by decide)

/-!
The ultrasonic distance probe read_ultrasonic (identical in
Sensor_CSV.py).  time and the echo line are modelled as two observation
streams: clock k is the value of the k-th time.time() call and echo j
the level seen by the j-th GPIO.input(ULTRASONIC_ECHO) call; the
trigger-pulse writes and sleeps touch neither stream.  The two polling
loops are embedded fuel-recursively; an exhausted fuel returns the outer
none (the loop did not finish within the modelled observations), while
some none is the code's own early return None on timeout.  0.04 seconds
is 1/25.
-/

/-- Round-half-to-even of a rational to an integer, the rounding used by
Python's builtin round. -/
def roundHalfEven (q : ℚ) : ℤ :=
  if q - ⌊q⌋ < 1 / 2 then ⌊q⌋
  else if 1 / 2 < q - ⌊q⌋ then ⌊q⌋ + 1
  else if ⌊q⌋ % 2 = 0 then ⌊q⌋ else ⌊q⌋ + 1

/-- round(x, 2) on the embedded rationals. -/
def round2 (q : ℚ) : ℚ := (roundHalfEven (q * 100) : ℚ) / 100

/-- One polling loop of read_ultrasonic: while the echo line reads lvl,
record the current time and return None when it passes the deadline;
on seeing the other level, exit with the next echo index, the current
clock index and the last recorded time. -/
def waitEdge (echo : ℕ → Bool) (clock : ℕ → ℚ) (lvl : Bool) :
    ℕ → ℕ → ℕ → ℚ → ℚ → Option (Option (ℕ × ℕ × ℚ))
  | 0, _, _, _, _ => none
  | fuel + 1, je, jc, t, dl =>
    if echo je = lvl then
      let t2 := clock jc
      if dl < t2 then some none
      else waitEdge echo clock lvl fuel (je + 1) (jc + 1) t2 dl
    else some (some (je + 1, jc, t))

/-- read_ultrasonic: record pulse_start and a 40 ms deadline, poll the
echo line until it goes high, then record pulse_end and a fresh 40 ms
deadline and poll until it goes low again; each timeout returns None,
otherwise the distance is the recorded duration times 17150 rounded to
two decimals. -/
def read_ultrasonic (clock : ℕ → ℚ) (echo : ℕ → Bool) (fuel : ℕ) :
    Option (Option ℚ) :=
  let t0 := clock 0
  match waitEdge echo clock false fuel 0 1 t0 (t0 + 1 / 25) with
  | none => none
  | some none => some none
  | some (some (je, jc, ps)) =>
    let pe0 := clock jc
    match waitEdge echo clock true fuel je (jc + 1) pe0 (pe0 + 1 / 25) with
    | none => none
    | some none => some none
    | some (some (_, _, pe)) => some (some (round2 ((pe - ps) * 17150)))

theorem waitEdge_timeout (echo : ℕ → Bool) (clock : ℕ → ℚ) (lvl : Bool) :
    ∀ (fuel je jc : ℕ) (t dl : ℚ),
      (∀ j, je ≤ j → echo j = lvl) →
      (∃ i, i < fuel ∧ dl < clock (jc + i)) →
      waitEdge echo clock lvl fuel je jc t dl = some none := by
  intro fuel
  induction fuel with
  | zero =>
    rintro je jc t dl he ⟨i, hi, _⟩
    omega
  | succ fuel ih =>
    rintro je jc t dl he ⟨i, hi, hcl⟩
    rw [waitEdge, if_pos (he je le_rfl)]
    by_cases h2 : dl < clock jc
    · simp only [if_pos h2]
    · simp only [if_neg h2]
      apply ih (je + 1) (jc + 1) (clock jc) dl
        (fun j hj => he j (by omega))
      rcases i with _ | i
      · exact absurd (by simpa using hcl) h2
      · exact ⟨i, by omega, by rw [show jc + 1 + i = jc + (i + 1) by omega]; exact hcl⟩

/-- C7: (a) when the echo line never reads high and the wall clock
passes the 40 ms deadline set at the first poll, read_ultrasonic returns
the absent reading None; (b) when the echo line does go high in time but
then stays high while the clock passes the fresh 40 ms deadline,
read_ultrasonic again returns None; (c) for every trace the outcome is
only ever a distance, the absent reading, or (a model artifact) fuel
exhaustion — the function never produces an error. -/
theorem ultrasonic_timeout_yields_absent :
    (∀ (clock : ℕ → ℚ) (echo : ℕ → Bool) (fuel k : ℕ),
      (∀ j, echo j = false) → k < fuel →
      clock 0 + 1 / 25 < clock (k + 1) →
      read_ultrasonic clock echo fuel = some none)
    ∧ (∀ (clock : ℕ → ℚ) (echo : ℕ → Bool) (fuel je jc i : ℕ) (ps : ℚ),
      waitEdge echo clock false fuel 0 1 (clock 0) (clock 0 + 1 / 25)
        = some (some (je, jc, ps)) →
      (∀ j, je ≤ j → echo j = true) → i < fuel →
      clock jc + 1 / 25 < clock (jc + 1 + i) →
      read_ultrasonic clock echo fuel = some none)
    ∧ (∀ (clock : ℕ → ℚ) (echo : ℕ → Bool) (fuel : ℕ),
      read_ultrasonic clock echo fuel = none
      ∨ read_ultrasonic clock echo fuel = some none
      ∨ ∃ d, read_ultrasonic clock echo fuel = some (some d)) := by
  refine ⟨?_, ?_, ?_⟩
  · intro clock echo fuel k hecho hk hcl
    have h1 : waitEdge echo clock false fuel 0 1 (clock 0) (clock 0 + 1 / 25)
        = some none :=
      waitEdge_timeout echo clock false fuel 0 1 (clock 0) (clock 0 + 1 / 25)
        (fun j _ => hecho j)
        ⟨k, hk, by rw [show 1 + k = k + 1 by omega]; exact hcl⟩
    simp only [read_ultrasonic, h1]
  · intro clock echo fuel je jc i ps h1 hecho hi hcl
    have h2 : waitEdge echo clock true fuel je (jc + 1) (clock jc)
        (clock jc + 1 / 25) = some none :=
      waitEdge_timeout echo clock true fuel je (jc + 1) (clock jc)
        (clock jc + 1 / 25) hecho ⟨i, hi, hcl⟩
    simp only [read_ultrasonic, h1, h2]
  · intro clock echo fuel
    rcases h : read_ultrasonic clock echo fuel with _ | d
    · exact Or.inl rfl
    · rcases d with _ | d
      · exact Or.inr (Or.inl rfl)
      · exact Or.inr (Or.inr ⟨d, rfl⟩)

/-- A concrete clock trace for the probe witnesses: the k-th time.time()
call returns k/50 seconds. -/
def probeClockW (k : ℕ) : ℚ := (k : ℚ) / 50

/-- An echo line that never goes high. -/
def probeEchoNever (_ : ℕ) : Bool := false

/-- An echo line that goes high at the second poll and stays high. -/
def probeEchoStuck (j : ℕ) : Bool := decide (1 ≤ j)

/-- Witness for C7: under probeClockW the never-high line times out and
yields None; the stuck-high line passes the first wait and then times
out in the second wait, also yielding None. -/
theorem ultrasonic_timeout_yields_absent_witness :
    read_ultrasonic probeClockW probeEchoNever 3 = some none
    ∧ read_ultrasonic probeClockW probeEchoStuck 4 = some none :=
  ⟨ultrasonic_timeout_yields_absent.1 probeClockW probeEchoNever 3 2
      (fun _ => rfl) (by omega) (by norm_num [probeClockW]),
   ultrasonic_timeout_yields_absent.2.1 probeClockW probeEchoStuck 4 2 2 2
      (1 / 50)
      (by simp only [waitEdge, probeEchoStuck, probeClockW]; norm_num)
      (fun j hj => by simp only [probeEchoStuck, decide_eq_true_eq]; omega)
      (by omega) (by norm_num [probeClockW])⟩

/-- C8: when both echo edges are observed before their deadlines, the
value returned by read_ultrasonic is exactly the recorded duration
between the instant the line was seen high (pulse_start) and the instant
it was seen low again (pulse_end), multiplied by 17150 and rounded to
two decimal places. -/
theorem ultrasonic_distance_formula (clock : ℕ → ℚ) (echo : ℕ → Bool)
    (fuel je jc je2 jc2 : ℕ) (ps pe : ℚ)
    (h1 : waitEdge echo clock false fuel 0 1 (clock 0) (clock 0 + 1 / 25)
      = some (some (je, jc, ps)))
    (h2 : waitEdge echo clock true fuel je (jc + 1) (clock jc)
      (clock jc + 1 / 25) = some (some (je2, jc2, pe))) :
    read_ultrasonic clock echo fuel
      = some (some (round2 ((pe - ps) * 17150))) := by
  simp only [read_ultrasonic, h1, h2]

/-- An echo line high exactly at polls 1 and 2: a clean echo pulse. -/
def probeEchoPulse (j : ℕ) : Bool := decide (j = 1 ∨ j = 2)

/-- Witness for C8: with probeClockW, the pulse is seen high at recorded
time 1/50 and low again at recorded time 3/50, and the returned distance
is round2 of (3/50 - 1/50) * 17150 (namely 686 cm). -/
theorem ultrasonic_distance_formula_witness :
    read_ultrasonic probeClockW probeEchoPulse 5
      = some (some (round2 ((3 / 50 - 1 / 50) * 17150))) :=
  ultrasonic_distance_formula probeClockW probeEchoPulse 5 2 2 4 4
    (1 / 50) (3 / 50)
    (by simp only [waitEdge, probeEchoPulse, probeClockW]; norm_num)
    (by simp only [waitEdge, probeEchoPulse, probeClockW]; norm_num)

/-!
The durable store rows.  A CSV cell is modelled as its list of
characters.  Number formatting models Python str() on the values the
program writes: int values and float values carrying at most two
decimal places (the DHT11 readings and the 2-rounded distances), and
parsing models float()/int()/strptime() on decimal text.
-/

/-- The character of a single decimal digit. -/
def digitChar (d : ℕ) : Char := Char.ofNat (48 + d)

/-- The numeric value of a digit character. -/
def digitVal (c : Char) : ℕ := c.toNat - 48

theorem digitVal_digitChar {d : ℕ} (h : d < 10) :
    digitVal (digitChar d) = d := by
  interval_cases d <;> rfl

theorem isDigit_digitChar {d : ℕ} (h : d < 10) :
    (digitChar d).isDigit = true := by
  interval_cases d <;> rfl

/-- Decimal digits of a natural number, most significant first, as
Python str() renders an integer. -/
def natChars (n : ℕ) : List Char :=
  if n = 0 then ['0'] else ((Nat.digits 10 n).map digitChar).reverse

/-- The number denoted by a string of decimal digit characters. -/
def charsToNat (cs : List Char) : ℕ :=
  Nat.ofDigits 10 ((cs.map digitVal).reverse)

theorem charsToNat_natChars (n : ℕ) : charsToNat (natChars n) = n := by
  by_cases h : n = 0
  · subst h; rfl
  · simp only [natChars, if_neg h, charsToNat]
    rw [List.map_reverse, List.reverse_reverse, List.map_map]
    have h2 : ∀ d ∈ Nat.digits 10 n, (digitVal ∘ digitChar) d = id d :=
      fun d hd => digitVal_digitChar (Nat.digits_lt_base (by norm_num) hd)
    rw [List.map_congr_left h2, List.map_id, Nat.ofDigits_digits]

theorem natChars_ne_nil (n : ℕ) : natChars n ≠ [] := by
  by_cases h : n = 0
  · subst h; simp [natChars]
  · simp only [natChars, if_neg h, ne_eq, List.reverse_eq_nil_iff,
      List.map_eq_nil_iff]
    exact Nat.digits_ne_nil_iff_ne_zero.mpr h

theorem natChars_all_digits (n : ℕ) :
    ∀ c ∈ natChars n, c.isDigit = true := by
  intro c hc
  by_cases h : n = 0
  · subst h
    simp [natChars] at hc
    subst hc; rfl
  · simp only [natChars, if_neg h, List.mem_reverse, List.mem_map] at hc
    obtain ⟨d, hd, rfl⟩ := hc
    exact isDigit_digitChar (Nat.digits_lt_base (by norm_num) hd)

/-- Left zero-padding to a field width, as strftime's zero-padded
conversions render timestamp components. -/
def padChars (w n : ℕ) : List Char :=
  List.replicate (w - (natChars n).length) '0' ++ natChars n

theorem ofDigits_replicate_zero (k : ℕ) :
    Nat.ofDigits 10 (List.replicate k 0) = 0 := by
  induction k with
  | zero => rfl
  | succ k ih => simp [List.replicate_succ, Nat.ofDigits_cons, ih]

theorem charsToNat_zeros_append (k : ℕ) (cs : List Char) :
    charsToNat (List.replicate k '0' ++ cs) = charsToNat cs := by
  simp only [charsToNat, List.map_append, List.map_replicate,
    List.reverse_append, List.reverse_replicate]
  rw [show digitVal '0' = 0 from rfl, Nat.ofDigits_append,
    ofDigits_replicate_zero]
  simp

theorem charsToNat_padChars (w n : ℕ) : charsToNat (padChars w n) = n := by
  rw [padChars, charsToNat_zeros_append, charsToNat_natChars]

theorem padChars_all_digits (w n : ℕ) :
    ∀ c ∈ padChars w n, c.isDigit = true := by
  intro c hc
  rw [padChars, List.mem_append] at hc
  rcases hc with hc | hc
  · rw [List.eq_of_mem_replicate hc]; rfl
  · exact natChars_all_digits n c hc

/-- Fractional part of a two-decimal value in hundredths, rendered the
way Python str() prints it: one digit when the hundredths digit is zero,
two digits otherwise. -/
def fracChars (frac : ℕ) : List Char :=
  if frac % 10 = 0 then [digitChar (frac / 10)]
  else [digitChar (frac / 10), digitChar (frac % 10)]

/-- Python str() of the float m/100: optional sign, the integer part,
a dot, and the fractional digits. -/
def decChars (m : ℤ) : List Char :=
  (if m < 0 then ['-'] else []) ++ natChars (m.natAbs / 100)
    ++ '.' :: fracChars (m.natAbs % 100)

/-- float() on unsigned decimal text: digits, an optional dot, and
fractional digits. -/
def parseUFloat (cs : List Char) : Option ℚ :=
  let ip := cs.takeWhile Char.isDigit
  match cs.dropWhile Char.isDigit with
  | [] => if ip = [] then none else some ((charsToNat ip : ℚ))
  | '.' :: fr =>
    if fr.all Char.isDigit = true ∧ (ip ≠ [] ∨ fr ≠ []) then
      some ((charsToNat ip : ℚ) + (charsToNat fr : ℚ) / (10 : ℚ) ^ fr.length)
    else none
  | _ => none

/-- float() on decimal text with an optional sign. -/
def parseFloat : List Char → Option ℚ
  | [] => none
  | c :: r =>
    if c = '-' then (parseUFloat r).map (fun q => -q)
    else if c = '+' then parseUFloat r
    else parseUFloat (c :: r)

/-- int() on digit text. -/
def parseIntU (cs : List Char) : Option ℤ :=
  if cs ≠ [] ∧ cs.all Char.isDigit = true then some ((charsToNat cs : ℤ))
  else none

/-- int() on digit text with an optional sign. -/
def parseIntChars : List Char → Option ℤ
  | [] => none
  | c :: r =>
    if c = '-' then (parseIntU r).map (fun z => -z)
    else if c = '+' then parseIntU r
    else parseIntU (c :: r)

theorem takeWhile_append_stop (p : Char → Bool) (ds : List Char)
    (sep : Char) (rest : List Char) (h1 : ∀ c ∈ ds, p c = true)
    (h2 : p sep = false) :
    (ds ++ sep :: rest).takeWhile p = ds := by
  induction ds with
  | nil => simp [List.takeWhile_cons, h2]
  | cons d ds ih =>
    simp only [List.cons_append, List.takeWhile_cons,
      h1 d (List.mem_cons_self d ds), if_true, List.cons.injEq, true_and]
    exact ih (fun c hc => h1 c (List.mem_cons_of_mem d hc))

theorem dropWhile_append_stop (p : Char → Bool) (ds : List Char)
    (sep : Char) (rest : List Char) (h1 : ∀ c ∈ ds, p c = true)
    (h2 : p sep = false) :
    (ds ++ sep :: rest).dropWhile p = sep :: rest := by
  induction ds with
  | nil => simp [List.dropWhile_cons, h2]
  | cons d ds ih =>
    simp only [List.cons_append, List.dropWhile_cons,
      h1 d (List.mem_cons_self d ds), if_true]
    exact ih (fun c hc => h1 c (List.mem_cons_of_mem d hc))

theorem natChars_head_digit (n : ℕ) :
    ∃ c cs, natChars n = c :: cs ∧ c.isDigit = true := by
  rcases h : natChars n with _ | ⟨c, cs⟩
  · exact absurd h (natChars_ne_nil n)
  · exact ⟨c, cs, rfl, natChars_all_digits n c (h ▸ List.mem_cons_self c cs)⟩

theorem fracChars_all_digits (b : ℕ) (hb : b < 100) :
    ∀ c ∈ fracChars b, c.isDigit = true := by
  intro c hc
  rw [fracChars] at hc
  split_ifs at hc <;> simp only [List.mem_singleton, List.mem_cons,
    List.mem_singleton, List.not_mem_nil, or_false] at hc
  · subst hc; exact isDigit_digitChar (by omega)
  · rcases hc with hc | hc <;> subst hc
    · exact isDigit_digitChar (by omega)
    · exact isDigit_digitChar (by omega)

theorem charsToNat_fracChars (b : ℕ) (hb : b < 100) :
    (charsToNat (fracChars b) : ℚ) / (10 : ℚ) ^ (fracChars b).length
      = (b : ℚ) / 100 := by
  have hd : b = 10 * (b / 10) + b % 10 := (Nat.div_add_mod b 10).symm
  rw [fracChars]
  split_ifs with h
  · have hv : charsToNat [digitChar (b / 10)] = b / 10 := by
      simp [charsToNat, Nat.ofDigits_cons, Nat.ofDigits_nil,
        digitVal_digitChar (show b / 10 < 10 by omega)]
    rw [hv]
    rw [show ((b : ℚ)) = ((10 * (b / 10) + b % 10 : ℕ) : ℚ) by rw [← hd]]
    push_cast
    rw [show ((b % 10 : ℕ) : ℚ) = 0 by rw [h]; norm_num]
    simp only [List.length_singleton, pow_one]
    ring
  · have hv : charsToNat [digitChar (b / 10), digitChar (b % 10)] = b := by
      simp [charsToNat, Nat.ofDigits_cons, Nat.ofDigits_nil,
        digitVal_digitChar (show b / 10 < 10 by omega),
        digitVal_digitChar (show b % 10 < 10 by omega)]
      omega
    rw [hv]
    norm_num

theorem parseFloat_cons (c : Char) (r : List Char) :
    parseFloat (c :: r)
      = if c = '-' then (parseUFloat r).map (fun q => -q)
        else if c = '+' then parseUFloat r
        else parseUFloat (c :: r) := rfl

theorem parseIntChars_cons (c : Char) (r : List Char) :
    parseIntChars (c :: r)
      = if c = '-' then (parseIntU r).map (fun z => -z)
        else if c = '+' then parseIntU r
        else parseIntU (c :: r) := rfl

theorem parseUFloat_dec (a b : ℕ) (hb : b < 100) :
    parseUFloat (natChars a ++ '.' :: fracChars b)
      = some ((a : ℚ) + (b : ℚ) / 100) := by
  have hdig := natChars_all_digits a
  have hdot : Char.isDigit '.' = false := rfl
  have ht := takeWhile_append_stop Char.isDigit (natChars a) '.'
    (fracChars b) hdig hdot
  have hd := dropWhile_append_stop Char.isDigit (natChars a) '.'
    (fracChars b) hdig hdot
  simp only [parseUFloat, ht, hd]
  rw [if_pos ⟨List.all_eq_true.mpr (fracChars_all_digits b hb),
    Or.inl (natChars_ne_nil a)⟩]
  rw [charsToNat_natChars, charsToNat_fracChars b hb]

theorem parseFloat_decChars (m : ℤ) :
    parseFloat (decChars m) = some ((m : ℚ) / 100) := by
  obtain ⟨c, cs, hcons, hdigc⟩ := natChars_head_digit (m.natAbs / 100)
  have hcm : c ≠ '-' := by
    intro h; rw [h] at hdigc; exact absurd hdigc (by decide)
  have hcp : c ≠ '+' := by
    intro h; rw [h] at hdigc; exact absurd hdigc (by decide)
  have hmod : m.natAbs % 100 < 100 := Nat.mod_lt _ (by norm_num)
  have e1 : ((m.natAbs : ℚ)) = 100 * ((m.natAbs / 100 : ℕ) : ℚ)
      + ((m.natAbs % 100 : ℕ) : ℚ) := by
    exact_mod_cast (Nat.div_add_mod m.natAbs 100).symm
  have hcast : ((m.natAbs : ℚ)) = ((m.natAbs : ℤ) : ℚ) :=
    (Int.cast_natCast m.natAbs).symm
  by_cases hm : m < 0
  · have e2 : ((m.natAbs : ℚ)) = -(m : ℚ) := by
      rw [hcast, show ((m.natAbs : ℤ)) = -m by omega]
      push_cast
      ring
    have hshape : decChars m
        = '-' :: (natChars (m.natAbs / 100) ++ '.' :: fracChars (m.natAbs % 100)) := by
      rw [decChars, if_pos hm]
      rfl
    rw [hshape, parseFloat_cons, if_pos rfl, parseUFloat_dec _ _ hmod]
    simp only [Option.map_some']
    congr 1
    linarith [e1, e2]
  · have e2 : ((m.natAbs : ℚ)) = (m : ℚ) := by
      rw [hcast, show ((m.natAbs : ℤ)) = m by omega]
    have hshape : decChars m
        = natChars (m.natAbs / 100) ++ '.' :: fracChars (m.natAbs % 100) := by
      rw [decChars, if_neg hm, List.nil_append]
    rw [hshape, hcons, List.cons_append, parseFloat_cons]
    rw [if_neg hcm, if_neg hcp, ← List.cons_append, ← hcons,
      parseUFloat_dec _ _ hmod]
    congr 1
    linarith [e1, e2]

theorem parseIntChars_natChars (n : ℕ) :
    parseIntChars (natChars n) = some ((n : ℤ)) := by
  obtain ⟨c, cs, hcons, hdigc⟩ := natChars_head_digit n
  have hcm : c ≠ '-' := by
    intro h; rw [h] at hdigc; exact absurd hdigc (by decide)
  have hcp : c ≠ '+' := by
    intro h; rw [h] at hdigc; exact absurd hdigc (by decide)
  rw [hcons, parseIntChars_cons]
  rw [if_neg hcm, if_neg hcp, ← hcons, parseIntU,
    if_pos ⟨natChars_ne_nil n, List.all_eq_true.mpr (natChars_all_digits n)⟩,
    charsToNat_natChars]

theorem takeWhile_all (p : Char → Bool) (l : List Char)
    (h : ∀ c ∈ l, p c = true) : l.takeWhile p = l := by
  induction l with
  | nil => rfl
  | cons d ds ih =>
    simp only [List.takeWhile_cons, h d (List.mem_cons_self d ds), if_true,
      List.cons.injEq, true_and]
    exact ih (fun c hc => h c (List.mem_cons_of_mem d hc))

theorem dropWhile_all (p : Char → Bool) (l : List Char)
    (h : ∀ c ∈ l, p c = true) : l.dropWhile p = [] := by
  induction l with
  | nil => rfl
  | cons d ds ih =>
    simp only [List.dropWhile_cons, h d (List.mem_cons_self d ds), if_true]
    exact ih (fun c hc => h c (List.mem_cons_of_mem d hc))

theorem padChars_ne_nil (w n : ℕ) : padChars w n ≠ [] := by
  rw [padChars]
  intro h
  rcases List.append_eq_nil.mp h with ⟨_, h2⟩
  exact natChars_ne_nil n h2

/-- strptime-style read of one maximal digit run, yielding its value and
the unconsumed remainder. -/
def parseNatField (cs : List Char) : Option (ℕ × List Char) :=
  let ds := cs.takeWhile Char.isDigit
  if ds = [] then none else some (charsToNat ds, cs.dropWhile Char.isDigit)

/-- strptime-style match of one literal separator character. -/
def expectChar (sep : Char) : List Char → Option (List Char)
  | [] => none
  | c :: r => if c = sep then some r else none

theorem expectChar_self (c : Char) (r : List Char) :
    expectChar c (c :: r) = some r := by
  simp [expectChar]

theorem parseNatField_pad (w n : ℕ) (sep : Char) (rest : List Char)
    (hsep : sep.isDigit = false) :
    parseNatField (padChars w n ++ sep :: rest) = some (n, sep :: rest) := by
  rw [parseNatField]
  simp only [takeWhile_append_stop Char.isDigit (padChars w n) sep rest
      (padChars_all_digits w n) hsep,
    dropWhile_append_stop Char.isDigit (padChars w n) sep rest
      (padChars_all_digits w n) hsep]
  rw [if_neg (padChars_ne_nil w n), charsToNat_padChars]

theorem parseNatField_pad_end (w n : ℕ) :
    parseNatField (padChars w n) = some (n, []) := by
  rw [parseNatField]
  simp only [takeWhile_all Char.isDigit (padChars w n) (padChars_all_digits w n),
    dropWhile_all Char.isDigit (padChars w n) (padChars_all_digits w n)]
  rw [if_neg (padChars_ne_nil w n), charsToNat_padChars]

/-- strftime "%Y-%m-%d %H:%M:%S": zero-padded fields joined by the
literal separators. -/
def formatDT (d : DT) : List Char :=
  padChars 4 d.year ++ '-' :: (padChars 2 d.month ++ '-' ::
    (padChars 2 d.day ++ ' ' :: (padChars 2 d.hour ++ ':' ::
      (padChars 2 d.minute ++ ':' :: padChars 2 d.second))))

/-- strptime for "%Y-%m-%d %H:%M:%S": six digit runs joined by the
literal separators, consuming the whole input, with the per-field range
checks of the format directives (month 1-12, day 1-31, hour 0-23,
minute 0-59, second 0-61).  Calendar-level validation (rejecting, say,
day 31 of a 30-day month) is not modelled. -/
def parseDT (cs : List Char) : Option DT :=
  match parseNatField cs with
  | none => none
  | some (y, r1) =>
    match expectChar '-' r1 with
    | none => none
    | some r1b =>
      match parseNatField r1b with
      | none => none
      | some (mo, r2) =>
        match expectChar '-' r2 with
        | none => none
        | some r2b =>
          match parseNatField r2b with
          | none => none
          | some (dy, r3) =>
            match expectChar ' ' r3 with
            | none => none
            | some r3b =>
              match parseNatField r3b with
              | none => none
              | some (h, r4) =>
                match expectChar ':' r4 with
                | none => none
                | some r4b =>
                  match parseNatField r4b with
                  | none => none
                  | some (mi, r5) =>
                    match expectChar ':' r5 with
                    | none => none
                    | some r5b =>
                      match parseNatField r5b with
                      | none => none
                      | some (s, r6) =>
                        match r6 with
                        | _ :: _ => none
                        | [] =>
                          if 1 ≤ mo ∧ mo ≤ 12 ∧ 1 ≤ dy ∧ dy ≤ 31
                              ∧ h ≤ 23 ∧ mi ≤ 59 ∧ s ≤ 61 then
                            some ⟨y, mo, dy, h, mi, s⟩
                          else none

theorem parseDT_formatDT (d : DT)
    (hmo1 : 1 ≤ d.month) (hmo2 : d.month ≤ 12)
    (hdy1 : 1 ≤ d.day) (hdy2 : d.day ≤ 31)
    (hh : d.hour ≤ 23) (hmi : d.minute ≤ 59) (hs : d.second ≤ 61) :
    parseDT (formatDT d) = some d := by
  have e1 : parseNatField (formatDT d)
      = some (d.year, '-' :: (padChars 2 d.month ++ '-' ::
          (padChars 2 d.day ++ ' ' :: (padChars 2 d.hour ++ ':' ::
            (padChars 2 d.minute ++ ':' :: padChars 2 d.second))))) :=
    parseNatField_pad 4 d.year '-' _ rfl
  have e3 : parseNatField (padChars 2 d.month ++ '-' ::
        (padChars 2 d.day ++ ' ' :: (padChars 2 d.hour ++ ':' ::
          (padChars 2 d.minute ++ ':' :: padChars 2 d.second))))
      = some (d.month, '-' :: (padChars 2 d.day ++ ' ' ::
          (padChars 2 d.hour ++ ':' :: (padChars 2 d.minute ++ ':' ::
            padChars 2 d.second)))) :=
    parseNatField_pad 2 d.month '-' _ rfl
  have e5 : parseNatField (padChars 2 d.day ++ ' ' ::
        (padChars 2 d.hour ++ ':' :: (padChars 2 d.minute ++ ':' ::
          padChars 2 d.second)))
      = some (d.day, ' ' :: (padChars 2 d.hour ++ ':' ::
          (padChars 2 d.minute ++ ':' :: padChars 2 d.second))) :=
    parseNatField_pad 2 d.day ' ' _ rfl
  have e7 : parseNatField (padChars 2 d.hour ++ ':' ::
        (padChars 2 d.minute ++ ':' :: padChars 2 d.second))
      = some (d.hour, ':' :: (padChars 2 d.minute ++ ':' ::
          padChars 2 d.second)) :=
    parseNatField_pad 2 d.hour ':' _ rfl
  have e9 : parseNatField (padChars 2 d.minute ++ ':' :: padChars 2 d.second)
      = some (d.minute, ':' :: padChars 2 d.second) :=
    parseNatField_pad 2 d.minute ':' _ rfl
  have e11 : parseNatField (padChars 2 d.second) = some (d.second, []) :=
    parseNatField_pad_end 2 d.second
  simp only [parseDT, e1, e3, e5, e7, e9, e11, expectChar_self]
  rw [if_pos ⟨hmo1, hmo2, hdy1, hdy2, hh, hmi, hs⟩]

/-- One row of the durable store, one text cell per column, as
csv.writer lays it down and csv.DictReader hands it back. -/
structure CsvRow where
  timestampC : List Char
  tempC : List Char
  ppmC : List Char
  levelC : List Char
  anomalyC : List Char
  deriving DecidableEq

/-- The sentinel token marking an absent value. -/
def naChars : List Char := ['N', '/', 'A']

/-- One sample plus verdict as sensor_loop writes it: the formatted
acquisition instant, the optional temperature and distance readings,
ppm_val, and the anomaly verdict text. -/
structure LogRecord where
  timestamp : DT
  temperature : Option ℚ
  ppm : ℕ
  distance : Option ℚ
  anomalyS : List Char
  deriving DecidableEq

/-- str() at the serialization boundary for the numeric readings the
loop writes; the program only ever writes two-decimal values (DHT11
readings and 2-rounded distances), held here in hundredths. -/
def floatChars (q : ℚ) : List Char := decChars ⌊q * 100⌋

/-- writer.writerow([timestamp, temp_val, ppm_val, level_val, anomaly]):
absent readings become the sentinel, numbers become their str() text. -/
def serializeRow (r : LogRecord) : CsvRow :=
  ⟨formatDT r.timestamp,
   match r.temperature with | none => naChars | some q => floatChars q,
   natChars r.ppm,
   match r.distance with | none => naChars | some q => floatChars q,
   r.anomalyS⟩

/-- The reader's treatment of a TEMP or LEVEL cell in read_csv_data:
float(cell) if cell != "N/A" else None; the outer none models the
exception float() raises on unparsable text. -/
def parseOptFloatCell (cs : List Char) : Option (Option ℚ) :=
  if cs = naChars then some none else (parseFloat cs).map some

theorem decChars_ne_na (m : ℤ) : decChars m ≠ naChars := by
  obtain ⟨c, cs, hcons, hdigc⟩ := natChars_head_digit (m.natAbs / 100)
  by_cases hm : m < 0
  · rw [decChars, if_pos hm]
    intro h
    rw [List.singleton_append, naChars] at h
    exact absurd (List.cons.inj h).1 (by decide)
  · rw [decChars, if_neg hm, List.nil_append, hcons, List.cons_append]
    intro h
    rw [naChars] at h
    have hc : c = 'N' := (List.cons.inj h).1
    rw [hc] at hdigc
    exact absurd hdigc (by decide)

theorem parseOptFloatCell_na : parseOptFloatCell naChars = some none := by
  rw [parseOptFloatCell, if_pos rfl]

theorem parseOptFloatCell_floatChars (mt : ℤ) :
    parseOptFloatCell (floatChars ((mt : ℚ) / 100))
      = some (some ((mt : ℚ) / 100)) := by
  have hfl : ⌊((mt : ℚ) / 100) * 100⌋ = mt := by
    rw [div_mul_cancel₀ _ (show (100 : ℚ) ≠ 0 by norm_num), Int.floor_intCast]
  rw [floatChars, hfl, parseOptFloatCell, if_neg (decChars_ne_na mt),
    parseFloat_decChars]
  rfl

/-- C6: serialization round-trips: a log record written as a CSV row
(timestamp as YYYY-MM-DD HH:MM:SS, absent temperature/distance as the
token N/A, gas as its ppm integer, numeric readings as two-decimal
text) and parsed back by the history reader's field parsers recovers
the original timestamp, temperature, gas and distance values, absent
mapping to N/A and back to absent.  The hypotheses restrict to the
values the program produces: a timestamp datetime.now() can emit and
readings with at most two decimal places. -/
theorem log_row_round_trip (r : LogRecord)
    (hmo1 : 1 ≤ r.timestamp.month) (hmo2 : r.timestamp.month ≤ 12)
    (hdy1 : 1 ≤ r.timestamp.day) (hdy2 : r.timestamp.day ≤ 31)
    (hh : r.timestamp.hour ≤ 23) (hmi : r.timestamp.minute ≤ 59)
    (hs : r.timestamp.second ≤ 61)
    (htq : r.temperature = none
      ∨ ∃ mt : ℤ, r.temperature = some ((mt : ℚ) / 100))
    (hdq : r.distance = none
      ∨ ∃ md : ℤ, r.distance = some ((md : ℚ) / 100)) :
    parseDT (serializeRow r).timestampC = some r.timestamp
    ∧ parseOptFloatCell (serializeRow r).tempC = some r.temperature
    ∧ parseIntChars (serializeRow r).ppmC = some ((r.ppm : ℤ))
    ∧ parseOptFloatCell (serializeRow r).levelC = some r.distance := by
  refine ⟨parseDT_formatDT r.timestamp hmo1 hmo2 hdy1 hdy2 hh hmi hs,
    ?_, parseIntChars_natChars r.ppm, ?_⟩
  · rcases htq with htq | ⟨mt, htq⟩ <;> rw [serializeRow] <;> rw [htq]
    · exact parseOptFloatCell_na
    · exact parseOptFloatCell_floatChars mt
  · rcases hdq with hdq | ⟨md, hdq⟩ <;> rw [serializeRow] <;> rw [hdq]
    · exact parseOptFloatCell_na
    · exact parseOptFloatCell_floatChars md

/-- The concrete record of the spec's example row: 2025-01-01 12:00:00,
temperature 23.5, no gas, distance 120.34, verdict No. -/
def sampleRecord : LogRecord :=
  ⟨⟨2025, 1, 1, 12, 0, 0⟩, some ((2350 : ℚ) / 100), 0,
   some ((12034 : ℚ) / 100), ['N', 'o']⟩

/-- Witness for C6: the example record round-trips through its CSV row. -/
theorem log_row_round_trip_witness :
    parseDT (serializeRow sampleRecord).timestampC
        = some sampleRecord.timestamp
    ∧ parseOptFloatCell (serializeRow sampleRecord).tempC
        = some sampleRecord.temperature
    ∧ parseIntChars (serializeRow sampleRecord).ppmC
        = some ((sampleRecord.ppm : ℤ))
    ∧ parseOptFloatCell (serializeRow sampleRecord).levelC
        = some sampleRecord.distance :=
  log_row_round_trip sampleRecord (by norm_num [sampleRecord])
    (by norm_num [sampleRecord]) (by norm_num [sampleRecord])
    (by norm_num [sampleRecord]) (by norm_num [sampleRecord])
    (by norm_num [sampleRecord]) (by norm_num [sampleRecord])
    (Or.inr ⟨2350, rfl⟩) (Or.inr ⟨12034, rfl⟩)

/-- The four accumulator lists of read_csv_data. -/
structure RowLists where
  times : List DT
  temps : List (Option ℚ)
  gas_values : List ℤ
  levels : List (Option ℚ)
  deriving DecidableEq

/-- One pass of read_csv_data's row loop.  Inside one try block the four
appends run in order (Timestamp, TEMP, PPM, LEVEL); the first field
whose conversion raises aborts the row, keeping the appends already
made, and except Exception: continue moves on to the next row. -/
def processRow (st : RowLists) (row : CsvRow) : RowLists :=
  match parseDT row.timestampC with
  | none => st
  | some t =>
    let times := st.times ++ [t]
    match parseOptFloatCell row.tempC with
    | none => ⟨times, st.temps, st.gas_values, st.levels⟩
    | some tv =>
      let temps := st.temps ++ [tv]
      match parseIntChars row.ppmC with
      | none => ⟨times, temps, st.gas_values, st.levels⟩
      | some g =>
        let gas_values := st.gas_values ++ [g]
        match parseOptFloatCell row.levelC with
        | none => ⟨times, temps, gas_values, st.levels⟩
        | some lv => ⟨times, temps, gas_values, st.levels ++ [lv]⟩

/-- read_csv_data over the store's data rows. -/
def read_csv_data (rows : List CsvRow) : RowLists :=
  rows.foldl processRow ⟨[], [], [], []⟩

/-- A data row whose Timestamp, TEMP and LEVEL cells are well formed but
whose PPM cell is the unparsable text "x". -/
def badPpmRow : CsvRow :=
  ⟨("2025-01-01 12:00:00").data, ("N/A").data, ("x").data,
   ("120.34").data, ("Yes").data⟩

/-- Counterexample for C9: the malformed row badPpmRow does contribute
entries — its Timestamp and TEMP cells are appended before int() raises
on the PPM cell, so times and temps gain one entry each while
gas_values and levels gain none, and the four lists end up with
different lengths. -/
theorem read_csv_partial_append_counterexample :
    (read_csv_data [badPpmRow]).times.length = 1
    ∧ (read_csv_data [badPpmRow]).temps.length = 1
    ∧ (read_csv_data [badPpmRow]).gas_values.length = 0
    ∧ (read_csv_data [badPpmRow]).levels.length = 0 := by
  decide

/-- C9 (amended): a row that fails to parse is abandoned at its first
failing field rather than skipped as a whole: every row contributes a
length-monotone prefix of appends (Timestamp, then TEMP, then PPM, then
LEVEL, at most one entry each), a row whose Timestamp already fails
contributes nothing, a fully parsed row contributes one entry to all
four lists, and parsing always continues with the subsequent rows. -/
theorem read_csv_skips_from_first_bad_field :
    (∀ (st : RowLists) (row : CsvRow),
      parseDT row.timestampC = none → processRow st row = st)
    ∧ (∀ (st : RowLists) (row : CsvRow) (t : DT) (tv : Option ℚ) (g : ℤ)
        (lv : Option ℚ),
      parseDT row.timestampC = some t →
      parseOptFloatCell row.tempC = some tv →
      parseIntChars row.ppmC = some g →
      parseOptFloatCell row.levelC = some lv →
      processRow st row = ⟨st.times ++ [t], st.temps ++ [tv],
        st.gas_values ++ [g], st.levels ++ [lv]⟩)
    ∧ (∀ (st : RowLists) (row : CsvRow),
      ∃ (a : List DT) (b : List (Option ℚ)) (c : List ℤ)
        (e : List (Option ℚ)),
        processRow st row = ⟨st.times ++ a, st.temps ++ b,
          st.gas_values ++ c, st.levels ++ e⟩
        ∧ e.length ≤ c.length ∧ c.length ≤ b.length
        ∧ b.length ≤ a.length ∧ a.length ≤ 1)
    ∧ (∀ (rows : List CsvRow) (row : CsvRow),
      read_csv_data (rows ++ [row])
        = processRow (read_csv_data rows) row) := by
  refine ⟨?_, ?_, ?_, ?_⟩
  · intro st row h
    simp only [processRow, h]
  · intro st row t tv g lv h1 h2 h3 h4
    simp only [processRow, h1, h2, h3, h4]
  · intro st row
    rcases h1 : parseDT row.timestampC with _ | t
    · refine ⟨[], [], [], [], ?_, by simp, by simp, by simp, by simp⟩
      simp only [processRow, h1, List.append_nil]
    · rcases h2 : parseOptFloatCell row.tempC with _ | tv
      · refine ⟨[t], [], [], [], ?_, by simp, by simp, by simp, by simp⟩
        simp only [processRow, h1, h2, List.append_nil]
      · rcases h3 : parseIntChars row.ppmC with _ | g
        · refine ⟨[t], [tv], [], [], ?_, by simp, by simp, by simp, by simp⟩
          simp only [processRow, h1, h2, h3, List.append_nil]
        · rcases h4 : parseOptFloatCell row.levelC with _ | lv
          · refine ⟨[t], [tv], [g], [], ?_, by simp, by simp, by simp,
              by simp⟩
            simp only [processRow, h1, h2, h3, h4, List.append_nil]
          · refine ⟨[t], [tv], [g], [lv], ?_, by simp, by simp, by simp,
              by simp⟩
            simp only [processRow, h1, h2, h3, h4]
  · intro rows row
    rw [read_csv_data, read_csv_data, List.foldl_append, List.foldl_cons,
      List.foldl_nil]

/-- A data row whose Timestamp cell is unparsable text. -/
def badTimestampRow : CsvRow :=
  ⟨("bad").data, ("23.5").data, ("1").data, ("120.34").data, ("No").data⟩

/-- A data row all of whose cells parse (absent readings as N/A). -/
def goodRow : CsvRow :=
  ⟨("2025-01-01 12:00:01").data, ("N/A").data, ("1").data,
   ("N/A").data, ("Yes").data⟩

/-- Witness for the amended C9: a row with a bad Timestamp contributes
nothing, and a fully parsed row appends one entry to all four lists. -/
theorem read_csv_skips_from_first_bad_field_witness :
    processRow ⟨[], [], [], []⟩ badTimestampRow = ⟨[], [], [], []⟩
    ∧ processRow ⟨[], [], [], []⟩ goodRow
      = ⟨[] ++ [⟨2025, 1, 1, 12, 0, 1⟩], [] ++ [none], [] ++ [(1 : ℤ)],
         [] ++ [none]⟩ :=
  ⟨read_csv_skips_from_first_bad_field.1 ⟨[], [], [], []⟩ badTimestampRow
    (by decide),
   read_csv_skips_from_first_bad_field.2.1 ⟨[], [], [], []⟩ goodRow
    ⟨2025, 1, 1, 12, 0, 1⟩ none 1 none (by decide) (by decide) (by decide)
    (by decide)⟩
